import Mathlib

/-!
Shallow embedding of `cobald_condor_limits` (files `query_view.py` and
`adapter.py`) and proofs about it.

Python strings are modelled as `List Char` (`PyStr`), Python floats as `ℚ`
(all numeric values appearing here are exact decimals), Python dicts as
insertion-ordered association lists with unique keys, wall-clock instants
(`time.time()`) as `ℚ`, and subprocess interactions as explicit outcome
values fed to the functions that would perform them.  Exceptions are
modelled with `Option`/`Except`.
-/

set_option maxRecDepth 4096

deriving instance DecidableEq for Except

/-- Model of a Python `str`: a sequence of characters. -/
abbrev PyStr := List Char

/-- Convert a Lean string literal into the `PyStr` model. -/
def pyStr (s : String) : PyStr := s.toList

/-- Whitespace characters recognised by Python's `str.strip()` / `str.split()`
(ASCII subset: space, tab, newline, carriage return, vertical tab, form feed). -/
def isPySpace (c : Char) : Bool :=
  c = ' ' || c = '\t' || c = '\n' || c = '\r' || c = '\x0b' || c = '\x0c'

/-- Model of Python `str.strip()`: remove leading and trailing whitespace. -/
def pyStrip (cs : PyStr) : PyStr :=
  ((cs.dropWhile isPySpace).reverse.dropWhile isPySpace).reverse

/-- Model of Python `str.lower()` on the ASCII letters used by the program. -/
def pyLower (cs : PyStr) : PyStr := cs.map Char.toLower

/-- Model of Python `item.partition('=')`, returning the text before the first
`'='` and the text after it (the whole string and `""` when no `'='` occurs,
matching `partition`'s head and tail components). -/
def pyPartitionEq : PyStr → PyStr × PyStr
  | [] => ([], [])
  | c :: cs =>
    if c = '=' then ([], cs)
    else
      let p := pyPartitionEq cs
      (c :: p.1, p.2)

/-- Model of Python `str.split()` with no argument: split on runs of
whitespace, discarding empty fields. -/
def pySplitWS (cs : PyStr) : List PyStr :=
  (cs.splitOnP isPySpace).filter (fun f => !f.isEmpty)

/-- Model of Python `resource.split('.')[0]`: the segment before the first
dot (the whole string when no dot occurs). -/
def firstSegment (cs : PyStr) : PyStr := cs.takeWhile (fun c => c != '.')

/-- Model of Python `resource.replace('.', '_')`. -/
def pyReplaceDotUnder (cs : PyStr) : PyStr :=
  cs.map (fun c => if c = '.' then '_' else c)

/-- Numeric value of a digit string. -/
def digitsToNat (cs : List Char) : ℕ :=
  cs.foldl (fun n c => 10 * n + (c.toNat - 48)) 0

/-- Unsigned decimal part of the `float()` model: digits with at most one
decimal point, at least one digit overall. -/
def pyFloatCore (cs : List Char) : Option ℚ :=
  let ip := cs.takeWhile Char.isDigit
  let rest := cs.dropWhile Char.isDigit
  match rest with
  | [] => if ip.isEmpty then none else some (digitsToNat ip : ℚ)
  | '.' :: fp =>
    if fp.all Char.isDigit && (!ip.isEmpty || !fp.isEmpty) then
      some ((digitsToNat ip : ℚ) + (digitsToNat fp : ℚ) / (10 : ℚ) ^ fp.length)
    else none
  | _ => none

/-- Model of Python `float(str)` on the simple decimal literals this program
encounters: surrounding whitespace, an optional sign, digits and at most one
decimal point.  (Exponent, `inf`/`nan` and underscore forms never occur in the
condor outputs consumed here and are out of scope.)  `none` models the
`ValueError` that `float()` raises on non-numeric input. -/
def pyFloat (s : PyStr) : Option ℚ :=
  match pyStrip s with
  | '+' :: cs => pyFloatCore cs
  | '-' :: cs => (pyFloatCore cs).map Neg.neg
  | cs => pyFloatCore cs

/-- Model of a Python `dict` with `PyStr` keys and float values: an
insertion-ordered association list whose keys are unique. -/
abbrev Dict := List (PyStr × ℚ)

/-- Model of `d[k]` on a dict: the value at the first (unique) matching key;
`none` models the `KeyError`. -/
def dictLookup (d : Dict) (k : PyStr) : Option ℚ :=
  match d with
  | [] => none
  | (k', v) :: rest => if k' = k then some v else dictLookup rest k

/-- Model of `d[k] = v` on a dict: replace the value at an existing key in
place, otherwise append the new entry (Python insertion-order semantics). -/
def dictInsert (d : Dict) (k : PyStr) (v : ℚ) : Dict :=
  match d with
  | [] => [(k, v)]
  | (k', v') :: rest =>
    if k' = k then (k, v) :: rest else (k', v') :: dictInsert rest k v

/-- One iteration of the loop in `query_limits` (adapter.py lines 17-30):
skip lines without `'='`; split the line at its first `'='`, stripping both
parts; skip the line if the key transform raises `ValueError` (`none`) or the
value does not parse as a float; otherwise store the entry. -/
def queryLimitsStep (kt : PyStr → Option PyStr) (acc : Dict) (line : PyStr) : Dict :=
  if line.contains '=' then
    let p := pyPartitionEq line
    match kt (pyStrip p.1) with
    | none => acc
    | some resource =>
      match pyFloat (pyStrip p.2) with
      | none => acc
      | some v => dictInsert acc resource v
  else acc

/-- Model of `query_limits` (adapter.py lines 16-31), taking the lines of the
subprocess output (`check_output(...).splitlines()`) directly. -/
def queryLimits (lines : List PyStr) (kt : PyStr → Option PyStr) : Dict :=
  lines.foldl (queryLimitsStep kt) []

/-- Model of `ConcurrencyConstraintView._key_to_resource` (adapter.py lines
60-64): `key.lower()[-6:] == '_limit'` accepts, returning `key[:-6]` (the
original-case name); otherwise `ValueError` (`none`). -/
def constraintKeyToResource (key : PyStr) : Option PyStr :=
  if (pyLower key).drop ((pyLower key).length - 6) = pyStr "_limit" then
    some (key.take (key.length - 6))
  else none

/-- Model of `ConcurrencyUsageView._key_to_resource` (adapter.py lines
106-110): `key.startswith('ConcurrencyLimit_')` accepts, returning `key[17:]`;
otherwise `ValueError` (`none`). -/
def usageKeyToResource (key : PyStr) : Option PyStr :=
  if (pyStr "ConcurrencyLimit_").isPrefixOf key then some (key.drop 17)
  else none

/-- Model of `ConcurrencyConstraintView.__getitem__` (adapter.py lines 43-50)
after the refresh step, resolving against the cached dict: exact lookup, then
on `KeyError` retry the segment before the first dot if the key is dotted;
`none` models the propagated `KeyError`. -/
def constraintGetItem (d : Dict) (resource : PyStr) : Option ℚ :=
  match dictLookup d resource with
  | some v => some v
  | none =>
    if resource.contains '.' then dictLookup d (firstSegment resource)
    else none

/-- Model of `ConcurrencyUsageView.__getitem__` (adapter.py lines 98-104)
after the refresh step: the exact lookup first normalises `'.'` to `'_'`
(`resource.replace('.', '_')`); on `KeyError`, retry the segment of the
original resource before the first dot if the resource is dotted. -/
def usageGetItem (d : Dict) (resource : PyStr) : Option ℚ :=
  match dictLookup d (pyReplaceDotUnder resource) with
  | some v => some v
  | none =>
    if resource.contains '.' then dictLookup d (firstSegment resource)
    else none

/-- Model of the mutable state of `CondorPoolView` (query_view.py lines
19-24): the pool selector, the TTL (`max_age`), the expiry instant
(`_valid_date`, a `time.time()` value) and the cached data (`_data`).
`data` is an `Option` because Python allows `self._data` to become `None`
when a `_query_data` implementation returns `None` (as
`PoolResources._query_data` does on a failed subprocess call). -/
structure ViewState where
  pool : Option PyStr
  max_age : ℚ
  valid_date : ℚ
  data : Option Dict
deriving DecidableEq

/-- Model of `CondorPoolView.__init__` (query_view.py lines 19-24):
`_valid_date` starts at `0` (in the past) and `_data` as an empty dict. -/
def initView (pool : Option PyStr) (max_age : ℚ) : ViewState :=
  ⟨pool, max_age, 0, some []⟩

/-- Possible outcomes of a call to a view's `_query_data`, as seen by
`_try_refresh`: a returned value (possibly Python `None`), a raised
`QueryError`, or a raised exception of any other class (e.g.
`subprocess.TimeoutExpired`, which no `_query_data` converts). -/
inductive QueryOutcome where
  | returns (d : Option Dict)
  | raisesQueryError
  | raisesOther
deriving DecidableEq

/-- The guard of `CondorPoolView._try_refresh` (query_view.py line 40):
a refresh is attempted exactly when `self._valid_date < time.time()`. -/
def refreshes (st : ViewState) (now : ℚ) : Bool :=
  decide (st.valid_date < now)

/-- Model of `CondorPoolView._try_refresh` (query_view.py lines 39-49) at
instant `now`, with `q` the outcome `_query_data` would produce: when stale,
a returned value replaces `_data` and sets `_valid_date = max_age + now`;
a `QueryError` is caught and logged, leaving the state unchanged; any other
exception propagates to the caller (`Except.error`). -/
def tryRefresh (st : ViewState) (now : ℚ) (q : QueryOutcome) : Except Unit ViewState :=
  if st.valid_date < now then
    match q with
    | .returns d => .ok { st with data := d, valid_date := st.max_age + now }
    | .raisesQueryError => .ok st
    | .raisesOther => .error ()
  else .ok st

/-- Outcomes of `subprocess.check_output(..., timeout=10, ...)` as used by
`query_limits`: captured output lines, a non-zero exit
(`CalledProcessError`), or a timeout (`TimeoutExpired`). -/
inductive CheckOutputResult where
  | out (lines : List PyStr)
  | calledProcessError
  | timeoutExpired
deriving DecidableEq

/-- Model of `ConcurrencyConstraintView._query_data` (adapter.py lines
66-73) as the `QueryOutcome` handed to `_try_refresh`: a successful call
parses the output with `query_limits`; `CalledProcessError` is re-raised as
`QueryError`; `TimeoutExpired` matches no `except` clause and propagates
unchanged. -/
def constraintQueryData (r : CheckOutputResult) : QueryOutcome :=
  match r with
  | .out lines => .returns (some (queryLimits lines constraintKeyToResource))
  | .calledProcessError => .raisesQueryError
  | .timeoutExpired => .raisesOther

/-- Model of `ConcurrencyUsageView._query_data` (adapter.py lines 112-118),
identical in shape to the constraint view's. -/
def usageQueryData (r : CheckOutputResult) : QueryOutcome :=
  match r with
  | .out lines => .returns (some (queryLimits lines usageKeyToResource))
  | .calledProcessError => .raisesQueryError
  | .timeoutExpired => .raisesOther

/-- Outcomes of a `subprocess.check_call(..., timeout=10)` on the write
path: success (zero exit), `CalledProcessError`, or `TimeoutExpired`. -/
inductive CheckCallResult where
  | success
  | calledProcessError
  | timeoutExpired
deriving DecidableEq

/-- An administrative invocation: its argument vector and its timeout in
seconds. -/
structure AdminCall where
  argv : List PyStr
  timeout : ℚ
deriving DecidableEq

/-- Model of `pool_command` (adapter.py lines 8-13): with a pool, inject
`-pool <pool>` right after the first word of the base command. -/
def poolCommand (base : List PyStr) (pool : Option PyStr) : List PyStr :=
  match pool with
  | none => base
  | some p => base.take 1 ++ [pyStr "-pool", p] ++ base.drop 1

/-- The two administrative invocations built by
`ConcurrencyConstraintView._set_constraint` (adapter.py lines 75-79): first
`condor_config_val -negotiator -rset "<resource>_LIMIT = <constraint>"`, then
`condor_reconfig -negotiator`, each run with `timeout=10`. -/
def setConstraintCalls (pool : Option PyStr) (resource constraint : PyStr) :
    AdminCall × AdminCall :=
  (⟨poolCommand [pyStr "condor_config_val", pyStr "-negotiator", pyStr "-rset",
      resource ++ pyStr "_LIMIT = " ++ constraint] pool, 10⟩,
   ⟨poolCommand [pyStr "condor_reconfig", pyStr "-negotiator"] pool, 10⟩)

/-- Model of `ConcurrencyConstraintView._set_constraint` (adapter.py lines
75-86), given the outcomes of the two `check_call`s.  It returns the
resulting state together with the list of invocations actually issued: the
second call only runs when the first succeeded; `CalledProcessError` and
`TimeoutExpired` from either call are caught and logged (never re-raised,
hence the total return type); `_valid_date` is cleared in the `else` branch
only when both calls succeeded. -/
def setConstraint (st : ViewState) (resource constraint : PyStr)
    (o1 o2 : CheckCallResult) : ViewState × List AdminCall :=
  let calls := setConstraintCalls st.pool resource constraint
  match o1 with
  | .success =>
    match o2 with
    | .success => ({ st with valid_date := 0 }, [calls.1, calls.2])
    | _ => (st, [calls.1, calls.2])
  | _ => (st, [calls.1])

/-- Model of Python `int()` applied to a float: truncation toward zero. -/
def pyInt (q : ℚ) : ℤ :=
  if q < 0 then Rat.ceil q else Rat.floor q

/-- Model of `ConcurrencyConstraintView.__setitem__` (adapter.py lines
56-58): run `_set_constraint(key, str(int(value)))`, then set
`self._valid_date = 0` unconditionally. -/
def constraintSetItem (st : ViewState) (key : PyStr) (value : ℚ)
    (o1 o2 : CheckCallResult) : ViewState × List AdminCall :=
  let r := setConstraint st key (pyStr (toString (pyInt value))) o1 o2
  ({ r.1 with valid_date := 0 }, r.2)

/-- Model of `ConcurrencyConstraintView.__delitem__` (adapter.py lines
52-54): run `_set_constraint(key, '')`, then set `self._valid_date = 0`. -/
def constraintDelItem (st : ViewState) (key : PyStr)
    (o1 o2 : CheckCallResult) : ViewState × List AdminCall :=
  let r := setConstraint st key [] o1 o2
  ({ r.1 with valid_date := 0 }, r.2)

/-- A per-host record of the capacity query output: `TotalSlotCpus`,
`TotalSlotMemory`, `TotalSlotDisk` and the machine name. -/
structure HostRecord where
  cpus : ℚ
  memory : ℚ
  disk : ℚ
  machine : PyStr
deriving DecidableEq

/-- One line of the `condor_status` output, as consumed by the loop in
`PoolResources._query_data` (adapter.py lines 157-166): `machine_info.split()`
must unpack into exactly four fields, otherwise the `ValueError` is caught
and the line skipped (`.ok none`); with four fields, the `float(...)`
conversions happen in the `else` block, outside the `try`, so a non-numeric
field raises a `ValueError` that nothing catches (`.error ()`). -/
def parseHostLine (line : PyStr) : Except Unit (Option HostRecord) :=
  match pySplitWS line with
  | [c, m, d, h] =>
    match pyFloat c, pyFloat m, pyFloat d with
    | some fc, some fm, some fd => .ok (some ⟨fc, fm, fd, h⟩)
    | _, _, _ => .error ()
  | _ => .ok none

/-- The running aggregate of `PoolResources._query_data`: the three numeric
accumulators of the local `data` dict, plus the `machines` set (modelled as a
duplicate-free list). -/
structure AggState where
  cpus : ℚ
  memory : ℚ
  disk : ℚ
  machines : List PyStr
deriving DecidableEq

/-- Model of `machines.add(machine)` on the set of seen machine names. -/
def insertMachine (ms : List PyStr) (m : PyStr) : List PyStr :=
  if ms.contains m then ms else ms ++ [m]

/-- One successful loop iteration of `PoolResources._query_data`: add the
record's fields to the accumulators and its machine name to the set. -/
def applyRecord (s : AggState) (r : HostRecord) : AggState :=
  ⟨s.cpus + r.cpus, s.memory + r.memory, s.disk + r.disk,
   insertMachine s.machines r.machine⟩

/-- The loop of `PoolResources._query_data` over the output lines: skipped
lines leave the aggregate unchanged; a `ValueError` from a `float(...)`
conversion aborts the whole loop (and the enclosing function). -/
def poolAggregate (s : AggState) : List PyStr → Except Unit AggState
  | [] => .ok s
  | l :: ls =>
    match parseHostLine l with
    | .error e => .error e
    | .ok none => poolAggregate s ls
    | .ok (some r) => poolAggregate (applyRecord s r) ls

/-- The dict built by `PoolResources._query_data` on the success path: the
accumulators plus `data['machines'] = len(machines)`. -/
def finalDict (s : AggState) : Dict :=
  [(pyStr "cpus", s.cpus), (pyStr "memory", s.memory),
   (pyStr "disk", s.disk), (pyStr "machines", (s.machines.length : ℚ))]

/-- Outcomes of the `subprocess.check_output` in `PoolResources._query_data`
(adapter.py line 158): output lines or `CalledProcessError`.  (This call
passes no `timeout`, so `TimeoutExpired` cannot arise.) -/
inductive StatusOutputResult where
  | out (lines : List PyStr)
  | calledProcessError
deriving DecidableEq

/-- Model of `PoolResources._query_data` (adapter.py lines 143-171): on
`CalledProcessError` the `except` branch is `pass`, the `else` branch with
its `return data` is skipped, and the function falls off the end returning
Python `None` (`.ok none`); a `ValueError` from a four-field record with a
non-numeric field propagates (`.error ()`); otherwise the aggregate dict is
returned. -/
def poolQueryData (r : StatusOutputResult) : Except Unit (Option Dict) :=
  match r with
  | .calledProcessError => .ok none
  | .out lines =>
    match poolAggregate ⟨0, 0, 0, []⟩ lines with
    | .error e => .error e
    | .ok s => .ok (some (finalDict s))

/-- `PoolResources._query_data` as the `QueryOutcome` handed to
`_try_refresh`: a returned value (including `None`!) is a successful query
from `_try_refresh`'s point of view; a propagating `ValueError` is an
exception that is not a `QueryError`. -/
def poolResourcesQueryData (r : StatusOutputResult) : QueryOutcome :=
  match poolQueryData r with
  | .ok v => .returns v
  | .error _ => .raisesOther

/-! ## Theorems -/

/-- C1 (code bug): the claim says that whenever a read triggers a refresh and
the external query fails (non-zero exit, timeout, or unparseable output), the
failure is caught at the refresh boundary, no exception reaches the reading
caller, and the cached data is exactly what it was before — explicitly
including `PoolResources`.  The code violates this twice.  First conjunct:
for `PoolResources`, a `CalledProcessError` makes `_query_data` return `None`
(its `except` branch is `pass` and `return data` sits in the `else`), which
`_try_refresh` treats as a successful query: the prior cached data
`{'cpus': 4}` is replaced by `None` and a fresh expiry is set.  Second
conjunct: for the constraint view, a `TimeoutExpired` from `check_output` is
not converted to `QueryError` (only `CalledProcessError` is), so it
propagates through `_try_refresh` to the reading caller. -/
theorem C1_refresh_failure_bug :
    tryRefresh ⟨none, 30, 0, some [(pyStr "cpus", 4)]⟩ 5
        (poolResourcesQueryData .calledProcessError) = .ok ⟨none, 30, 35, none⟩
  ∧ tryRefresh ⟨none, 10, 0, some [(pyStr "gpu", 5)]⟩ 5
        (constraintQueryData .timeoutExpired) = .error () := by
  refine ⟨?_, ?_⟩
  · show tryRefresh _ _ _ = _
    simp only [poolResourcesQueryData, poolQueryData, tryRefresh]
    norm_num
  · simp only [constraintQueryData, tryRefresh]
    norm_num

/-- C2 (amended): for TTL `t > 0`, a fresh view refreshes on its first access
(any positive instant) regardless of `t`; a successful refresh at instant
`now` sets the expiry to `max_age + now`; accesses strictly within `t`
seconds of that refresh trigger no refresh; an access *strictly after* the
expiry instant triggers exactly one refresh before the value is returned
(the guard is `self._valid_date < time.time()`, so, contrary to the original
claim, an access exactly *at* the expiry instant triggers none — last
conjunct). -/
theorem C2_ttl_refresh :
    (∀ (pool : Option PyStr) (t now : ℚ), 0 < now →
      refreshes (initView pool t) now = true)
  ∧ (∀ (st : ViewState) (d : Option Dict) (now : ℚ), st.valid_date < now →
      tryRefresh st now (.returns d) = .ok ⟨st.pool, st.max_age, st.max_age + now, d⟩)
  ∧ (∀ (st : ViewState) (d : Option Dict) (now now' : ℚ), st.valid_date < now →
      now' < now + st.max_age →
      ∀ st', tryRefresh st now (.returns d) = .ok st' → refreshes st' now' = false)
  ∧ (∀ (st : ViewState) (now : ℚ), st.valid_date < now → refreshes st now = true)
  ∧ (∀ (st : ViewState) (q : QueryOutcome),
      tryRefresh st st.valid_date q = .ok st ∧ refreshes st st.valid_date = false) := by
  refine ⟨?_, ?_, ?_, ?_, ?_⟩
  · intro pool t now h
    simp [refreshes, initView, h]
  · intro st d now h
    simp [tryRefresh, h]
  · intro st d now now' h hlt st' hok
    simp [tryRefresh, h] at hok
    subst hok
    simp only [refreshes, decide_eq_false_iff_not, not_lt]
    linarith
  · intro st now h
    simp [refreshes, h]
  · intro st q
    constructor
    · simp [tryRefresh]
    · simp [refreshes]

/-- C2 witness: a concrete run — TTL 10, first access at instant 1 refreshes,
the refresh sets the expiry to 11, and a second access at instant 5 (strictly
within the TTL window) triggers no refresh. -/
theorem C2_ttl_refresh_witness :
    refreshes (initView none 10) 1 = true
  ∧ tryRefresh (initView none 10) 1 (.returns (some [(pyStr "a", 1)]))
      = .ok ⟨none, 10, 10 + 1, some [(pyStr "a", 1)]⟩
  ∧ refreshes ⟨none, 10, 10 + 1, some [(pyStr "a", 1)]⟩ 5 = false :=
  ⟨C2_ttl_refresh.1 none 10 1 (by norm_num),
   C2_ttl_refresh.2.1 (initView none 10) (some [(pyStr "a", 1)]) 1 (by norm_num [initView]),
   C2_ttl_refresh.2.2.1 (initView none 10) (some [(pyStr "a", 1)]) 1 5
     (by norm_num [initView]) (by norm_num [initView]) _
     (C2_ttl_refresh.2.1 (initView none 10) (some [(pyStr "a", 1)]) 1 (by norm_num [initView]))⟩

/-- C2 counterexample: after a successful refresh at instant 1 with TTL 10
the expiry instant is 11, and an access exactly at instant 11 — "at the
expiry instant" — triggers *no* refresh, because the guard
`self._valid_date < time.time()` is strict; the original claim demanded
exactly one refresh there. -/
theorem C2_at_expiry_counterexample :
    tryRefresh (initView none 10) 1 (.returns (some [(pyStr "a", 1)]))
      = .ok ⟨none, 10, 10 + 1, some [(pyStr "a", 1)]⟩
  ∧ refreshes ⟨none, 10, 10 + 1, some [(pyStr "a", 1)]⟩ (10 + 1) = false := by
  refine ⟨?_, ?_⟩
  · simp only [tryRefresh, initView]
    norm_num
  · simp [refreshes]

/-- C10 (code bug): the claim says a failed refresh attempt leaves
`_valid_date` unchanged on every view, so a failure is never cached and no
TTL window is waited out after a failure.  First conjunct: this is true for
the failure mode `_try_refresh` anticipates — a raised `QueryError` leaves
the whole state (in particular `_valid_date`) unchanged, whether or not a
refresh was due.  Second and third conjuncts: it is false for
`PoolResources`, whose failed query returns `None` instead of raising
`QueryError`; at instant 5 with TTL 30 the failure is cached
(`_data = None`) and `_valid_date` advances to 35, so a later access at
instant 20 does not re-attempt the query — the view waits out a full TTL
window on a failure. -/
theorem C10_failed_refresh_expiry_bug :
    (∀ (st : ViewState) (now : ℚ), tryRefresh st now .raisesQueryError = .ok st)
  ∧ tryRefresh ⟨none, 30, 0, some []⟩ 5
      (poolResourcesQueryData .calledProcessError) = .ok ⟨none, 30, 35, none⟩
  ∧ refreshes ⟨none, 30, 35, none⟩ 20 = false := by
  refine ⟨?_, ?_, ?_⟩
  · intro st now
    unfold tryRefresh
    split <;> rfl
  · simp only [poolResourcesQueryData, poolQueryData, tryRefresh]
    norm_num
  · simp [refreshes]
    norm_num

/-- `[]` is a prefix of anything, and consing the same head preserves the
Boolean prefix test; hence a list is a prefix of itself followed by any
tail. -/
theorem isPrefixOf_append_self (p t : PyStr) : p.isPrefixOf (p ++ t) = true := by
  induction p with
  | nil => simp [List.isPrefixOf]
  | cons c cs ih => simp [List.isPrefixOf, ih]

/-- `__setitem__` and `__delitem__` reset `_valid_date` unconditionally. -/
theorem setItem_valid_date (st : ViewState) (key : PyStr) (value : ℚ)
    (o1 o2 : CheckCallResult) :
    (constraintSetItem st key value o1 o2).1.valid_date = 0
    ∧ (constraintDelItem st key o1 o2).1.valid_date = 0 := by
  cases o1 <;> cases o2 <;> exact ⟨rfl, rfl⟩

/-- `_set_constraint` issues either both calls (first succeeded) or only the
first one (first raised, caught by the `except` clause). -/
theorem setConstraint_calls (st : ViewState) (r c : PyStr) (o1 o2 : CheckCallResult) :
    (o1 = .success ∧ (setConstraint st r c o1 o2).2 =
      [(setConstraintCalls st.pool r c).1, (setConstraintCalls st.pool r c).2])
    ∨ (o1 ≠ .success ∧ (setConstraint st r c o1 o2).2 =
      [(setConstraintCalls st.pool r c).1]) := by
  cases o1 <;> cases o2 <;> simp [setConstraint]

/-- C3: for every resource and value, `__setitem__` on the Limit View issues
the set-limit invocation first and, when it succeeds, the reconfiguration
invocation second (the claim's two commands in order; a failed first call is
caught before the second is attempted); every issued invocation carries
timeout 10; neither failure mode raises to the caller (`constraintSetItem`
is total over all modelled `check_call` outcomes); regardless of the
outcomes `_valid_date` is reset to 0, so any later read at a positive
instant refreshes even inside the TTL window.  `__delitem__` behaves the
same with the empty constraint value. -/
theorem C3_write_invalidate :
    ∀ (st : ViewState) (key : PyStr) (value : ℚ) (o1 o2 : CheckCallResult),
      (constraintSetItem st key value o1 o2).1.valid_date = 0
    ∧ (constraintSetItem st key value o1 o2).2.head? =
        some (setConstraintCalls st.pool key (pyStr (toString (pyInt value)))).1
    ∧ (o1 = .success → (constraintSetItem st key value o1 o2).2 =
        [(setConstraintCalls st.pool key (pyStr (toString (pyInt value)))).1,
         (setConstraintCalls st.pool key (pyStr (toString (pyInt value)))).2])
    ∧ (∀ c ∈ (constraintSetItem st key value o1 o2).2, c.timeout = 10)
    ∧ (∀ now : ℚ, 0 < now → refreshes (constraintSetItem st key value o1 o2).1 now = true)
    ∧ (constraintDelItem st key o1 o2).1.valid_date = 0
    ∧ (constraintDelItem st key o1 o2).2.head? = some (setConstraintCalls st.pool key []).1
    ∧ (o1 = .success → (constraintDelItem st key o1 o2).2 =
        [(setConstraintCalls st.pool key []).1, (setConstraintCalls st.pool key []).2])
    ∧ (∀ now : ℚ, 0 < now → refreshes (constraintDelItem st key o1 o2).1 now = true) := by
  intro st key value o1 o2
  have hv := setItem_valid_date st key value o1 o2
  have hs := setConstraint_calls st key (pyStr (toString (pyInt value))) o1 o2
  have hd := setConstraint_calls st key [] o1 o2
  refine ⟨hv.1, ?_, ?_, ?_, ?_, hv.2, ?_, ?_, ?_⟩
  · rcases hs with ⟨_, h⟩ | ⟨_, h⟩ <;>
      simp [constraintSetItem, h]
  · intro h1
    rcases hs with ⟨_, h⟩ | ⟨hne, _⟩
    · simp [constraintSetItem, h]
    · exact absurd h1 hne
  · intro c hc
    simp only [constraintSetItem] at hc
    rcases hs with ⟨_, h⟩ | ⟨_, h⟩ <;> rw [h] at hc
    · simp only [List.mem_cons, List.not_mem_nil, or_false] at hc
      rcases hc with rfl | rfl <;> rfl
    · simp only [List.mem_cons, List.not_mem_nil, or_false] at hc
      subst hc
      rfl
  · intro now h
    simp only [refreshes, decide_eq_true_eq, hv.1]
    exact h
  · rcases hd with ⟨_, h⟩ | ⟨_, h⟩ <;>
      simp [constraintDelItem, h]
  · intro h1
    rcases hd with ⟨_, h⟩ | ⟨hne, _⟩
    · simp [constraintDelItem, h]
    · exact absurd h1 hne
  · intro now h
    simp only [refreshes, decide_eq_true_eq, hv.2]
    exact h

/-- C3 witness: with cached state still fresh (`_valid_date = 100`), setting
`gpu` to 10 while the first administrative call times out still resets
`_valid_date` to 0 and forces a refresh on a read at instant 5; when both
calls succeed, exactly the two commands are issued in order. -/
theorem C3_write_invalidate_witness :
    refreshes (constraintSetItem ⟨none, 10, 100, some []⟩ (pyStr "gpu") 10
      .timeoutExpired .success).1 5 = true
  ∧ (constraintSetItem ⟨none, 10, 100, some []⟩ (pyStr "gpu") 10 .success .success).2 =
      [(setConstraintCalls none (pyStr "gpu") (pyStr (toString (pyInt 10)))).1,
       (setConstraintCalls none (pyStr "gpu") (pyStr (toString (pyInt 10)))).2] :=
  ⟨(C3_write_invalidate ⟨none, 10, 100, some []⟩ (pyStr "gpu") 10
      .timeoutExpired .success).2.2.2.2.1 5 (by norm_num),
   (C3_write_invalidate ⟨none, 10, 100, some []⟩ (pyStr "gpu") 10
      .success .success).2.2.1 rfl⟩

/-- C4: on the Limit View, an exact hit is returned as is; an exact miss on
a dotted key retries the segment before the first dot (the top-level group),
and the result is whatever that lookup yields — `none` (a propagating
`KeyError`) when the group is also absent; an exact miss on an undotted key
propagates `KeyError` directly.  The Usage View applies the same fallback.
Concretely, data `{"gpu": 5}` resolves `"gpu.typeA"` to 5. -/
theorem C4_parent_group_fallback :
    ∀ (d : Dict) (resource : PyStr) (v : ℚ),
      (dictLookup d resource = some v → constraintGetItem d resource = some v)
    ∧ (dictLookup d resource = none → resource.contains '.' = true →
        constraintGetItem d resource = dictLookup d (firstSegment resource))
    ∧ (dictLookup d resource = none → resource.contains '.' = false →
        constraintGetItem d resource = none)
    ∧ (dictLookup d (pyReplaceDotUnder resource) = none → resource.contains '.' = true →
        usageGetItem d resource = dictLookup d (firstSegment resource))
    ∧ constraintGetItem [(pyStr "gpu", 5)] (pyStr "gpu.typeA") = some 5 := by
  intro d resource v
  refine ⟨?_, ?_, ?_, ?_, by decide⟩
  · intro h
    simp [constraintGetItem, h]
  · intro h hdot
    simp at hdot
    simp [constraintGetItem, h, hdot]
  · intro h hdot
    simp at hdot
    simp [constraintGetItem, h, hdot]
  · intro h hdot
    simp at hdot
    simp [usageGetItem, h, hdot]

/-- C4 witness: with data `{"gpu": 5}`, the dotted key `"gpu.typeA"` misses
exactly and resolves through its top-level group segment. -/
theorem C4_parent_group_fallback_witness :
    constraintGetItem [(pyStr "gpu", 5)] (pyStr "gpu.typeA")
      = dictLookup [(pyStr "gpu", 5)] (firstSegment (pyStr "gpu.typeA")) :=
  (C4_parent_group_fallback [(pyStr "gpu", 5)] (pyStr "gpu.typeA") 5).2.1
    (by decide) (by decide)

/-- C6: on the Usage View, the exact-key lookup first substitutes `'.'` by
`'_'` in the requested resource before matching the cached data; the key
transform accepts exactly the keys carrying the case-sensitive prefix
`ConcurrencyLimit_`, mapping `ConcurrencyLimit_<NAME>` to `<NAME>` and
rejecting every other key; the line `"ConcurrencyLimit_GPU_typeA = 3"`
parses to resource `"GPU_typeA"` with value 3. -/
theorem C6_usage_view_keys :
    ∀ (d : Dict) (resource : PyStr) (v : ℚ) (name key : PyStr),
      (dictLookup d (pyReplaceDotUnder resource) = some v →
        usageGetItem d resource = some v)
    ∧ usageKeyToResource (pyStr "ConcurrencyLimit_" ++ name) = some name
    ∧ ((pyStr "ConcurrencyLimit_").isPrefixOf key = false →
        usageKeyToResource key = none)
    ∧ queryLimits [pyStr "ConcurrencyLimit_GPU_typeA = 3"] usageKeyToResource
        = [(pyStr "GPU_typeA", 3)] := by
  intro d resource v name key
  refine ⟨?_, ?_, ?_, by decide⟩
  · intro h
    simp [usageGetItem, h]
  · have hpre := isPrefixOf_append_self (pyStr "ConcurrencyLimit_") name
    simp only [usageKeyToResource, hpre, if_true]
    have hlen : (pyStr "ConcurrencyLimit_").length = 17 := rfl
    rw [show (17 : ℕ) = (pyStr "ConcurrencyLimit_").length from rfl, List.drop_left]
  · intro h
    simp [usageKeyToResource, h]

/-- C6 witness: usage data stores `GPU_typeA`; the public dotted key
`GPU.typeA` is normalised to the internal separator and found. -/
theorem C6_usage_view_keys_witness :
    usageGetItem [(pyStr "GPU_typeA", 3)] (pyStr "GPU.typeA") = some 3 :=
  (C6_usage_view_keys [(pyStr "GPU_typeA", 3)] (pyStr "GPU.typeA") 3 [] []).1 (by decide)

/-- C5 (amended): the Limit View's key transform accepts exactly the keys
whose lowercased form ends in `_limit` (i.e. the suffix `_LIMIT` matched
case-insensitively), mapping such a key to the key minus its final six
characters *with the original case preserved* (`key[:-6]`, per the source;
the original claim's example promised lowercase `"gpu"`); keys without the
suffix are rejected, so their lines contribute nothing.  The line
`"GPU_LIMIT = 7"` therefore parses to resource `"GPU"` with value 7, and
`"OTHER_ATTR = x"` contributes no entry. -/
theorem C5_limit_key_transform :
    ∀ (key name : PyStr),
      (pyStr "_limit" <:+ pyLower key →
        constraintKeyToResource key = some (key.take (key.length - 6)))
    ∧ (¬ pyStr "_limit" <:+ pyLower key → constraintKeyToResource key = none)
    ∧ constraintKeyToResource (name ++ pyStr "_LIMIT") = some name
    ∧ queryLimits [pyStr "GPU_LIMIT = 7"] constraintKeyToResource = [(pyStr "GPU", 7)]
    ∧ queryLimits [pyStr "OTHER_ATTR = x"] constraintKeyToResource = [] := by
  intro key name
  have hlen : (pyStr "_limit").length = 6 := rfl
  have hiff : pyStr "_limit" <:+ pyLower key ↔
      (pyLower key).drop ((pyLower key).length - 6) = pyStr "_limit" := by
    rw [List.suffix_iff_eq_drop, hlen]
    exact ⟨fun h => h.symm, fun h => h.symm⟩
  refine ⟨?_, ?_, ?_, by decide, by decide⟩
  · intro h
    rw [constraintKeyToResource, if_pos (hiff.mp h)]
  · intro h
    rw [constraintKeyToResource, if_neg (fun hc => h (hiff.mpr hc))]
  · have h2 : List.map Char.toLower (pyStr "_LIMIT") = pyStr "_limit" := by decide
    have h1 : pyLower (name ++ pyStr "_LIMIT") = pyLower name ++ pyStr "_limit" := by
      unfold pyLower
      rw [List.map_append, h2]
    have hcond : (pyLower (name ++ pyStr "_LIMIT")).drop
        ((pyLower (name ++ pyStr "_LIMIT")).length - 6) = pyStr "_limit" := by
      rw [h1]
      have hl : (pyLower name ++ pyStr "_limit").length - 6 = (pyLower name).length := by
        rw [List.length_append, hlen, Nat.add_sub_cancel]
      rw [hl, List.drop_left]
    rw [constraintKeyToResource, if_pos hcond]
    have hl2 : (name ++ pyStr "_LIMIT").length - 6 = name.length := by
      rw [List.length_append, show (pyStr "_LIMIT").length = 6 from rfl,
        Nat.add_sub_cancel]
    rw [hl2, List.take_left]

/-- C5 witness: `GPU_LIMIT` carries the case-insensitive `_LIMIT` suffix and
is mapped to its first `length - 6` characters, i.e. `GPU`. -/
theorem C5_limit_key_transform_witness :
    constraintKeyToResource (pyStr "GPU_LIMIT")
      = some ((pyStr "GPU_LIMIT").take ((pyStr "GPU_LIMIT").length - 6)) :=
  (C5_limit_key_transform (pyStr "GPU_LIMIT") []).1 (by decide)

/-- C5 counterexample: the original claim promises that `"GPU_LIMIT = 7"`
parses to resource `"gpu"`; in fact `_key_to_resource` lowercases only for
the suffix comparison and returns `key[:-6]` unchanged, so the parsed dict
is `{"GPU": 7.0}` and contains no key `"gpu"`. -/
theorem C5_limit_key_case_counterexample :
    queryLimits [pyStr "GPU_LIMIT = 7"] constraintKeyToResource = [(pyStr "GPU", 7)]
  ∧ dictLookup (queryLimits [pyStr "GPU_LIMIT = 7"] constraintKeyToResource)
      (pyStr "gpu") = none :=
  ⟨by decide, by decide⟩

/-- C7: the key/value parser skips every line without `'='` (without
aborting the remaining lines); `partition('=')` splits at the *first* `'='`;
a line whose key the transform rejects, or whose value does not parse as a
float, is skipped without aborting the rest of the fold; a line passing both
stores the entry under the transformed key built from the
whitespace-trimmed parts; duplicate transformed keys overwrite (the last
stored value is the one looked up); a concrete run exercises all of it. -/
theorem C7_parser_skips_and_overwrites :
    ∀ (kt : PyStr → Option PyStr) (acc : Dict) (line : PyStr) (a b : PyStr)
      (rest : List PyStr) (d : Dict) (k : PyStr) (v : ℚ),
      (line.contains '=' = false → queryLimitsStep kt acc line = acc)
    ∧ (line.contains '=' = false →
        List.foldl (queryLimitsStep kt) acc (line :: rest)
          = List.foldl (queryLimitsStep kt) acc rest)
    ∧ (a.contains '=' = false → pyPartitionEq (a ++ '=' :: b) = (a, b))
    ∧ (line.contains '=' = true →
        kt (pyStrip (pyPartitionEq line).1) = none → queryLimitsStep kt acc line = acc)
    ∧ (∀ res, line.contains '=' = true →
        kt (pyStrip (pyPartitionEq line).1) = some res →
        pyFloat (pyStrip (pyPartitionEq line).2) = none →
        queryLimitsStep kt acc line = acc)
    ∧ (∀ res, line.contains '=' = true →
        kt (pyStrip (pyPartitionEq line).1) = some res →
        pyFloat (pyStrip (pyPartitionEq line).2) = some v →
        queryLimitsStep kt acc line = dictInsert acc res v)
    ∧ dictLookup (dictInsert d k v) k = some v
    ∧ queryLimits [pyStr "A_LIMIT = 1", pyStr "junk", pyStr "B_LIMIT = x",
        pyStr "A_LIMIT = 2"] constraintKeyToResource = [(pyStr "A", 2)] := by
  intro kt acc line a b rest d k v
  refine ⟨?_, ?_, ?_, ?_, ?_, ?_, ?_, by decide⟩
  · intro h
    simp at h
    simp [queryLimitsStep, h]
  · intro h
    simp at h
    have h1 : queryLimitsStep kt acc line = acc := by simp [queryLimitsStep, h]
    rw [List.foldl_cons, h1]
  · intro h
    simp only [List.contains_eq_any_beq, List.any_eq_false] at h
    induction a with
    | nil => simp [pyPartitionEq]
    | cons c cs ih =>
      have hc : ¬ (c = '=') := by
        intro hc
        exact absurd (beq_self_eq_true '=') (by simpa [hc] using h c (by simp))
      have hcs := ih (fun x hx => h x (by simp [hx]))
      simp [pyPartitionEq, hc, hcs]
  · intro h hkt
    simp at h
    simp [queryLimitsStep, h, hkt]
  · intro res h hkt hfl
    simp at h
    simp [queryLimitsStep, h, hkt, hfl]
  · intro res h hkt hfl
    simp at h
    simp [queryLimitsStep, h, hkt, hfl]
  · induction d with
    | nil => simp [dictInsert, dictLookup]
    | cons p tail ih =>
      obtain ⟨k', v'⟩ := p
      by_cases hk : k' = k
      · subst hk
        simp [dictInsert, dictLookup]
      · simp [dictInsert, dictLookup, hk, ih]

/-- C7 witness: a separator-free line is skipped; `partition` splits
`"A_LIMIT = 2"` at its `'='`; inserting under an existing key overwrites the
stored value. -/
theorem C7_parser_witness :
    queryLimitsStep constraintKeyToResource [] (pyStr "junk") = []
  ∧ pyPartitionEq (pyStr "A_LIMIT " ++ '=' :: pyStr " 2") = (pyStr "A_LIMIT ", pyStr " 2")
  ∧ queryLimitsStep constraintKeyToResource [] (pyStr "B_LIMIT = x") = [] :=
  ⟨(C7_parser_skips_and_overwrites constraintKeyToResource [] (pyStr "junk")
      [] [] [] [] [] 0).1 (by decide),
   (C7_parser_skips_and_overwrites constraintKeyToResource [] []
      (pyStr "A_LIMIT ") (pyStr " 2") [] [] [] 0).2.2.1 (by decide),
   (C7_parser_skips_and_overwrites constraintKeyToResource [] (pyStr "B_LIMIT = x")
      [] [] [] [] [] 0).2.2.2.2.1 (pyStr "B") (by decide) (by decide) (by decide)⟩

/-- When every line parses to its record, the aggregation loop is the fold
of `applyRecord` over the records. -/
theorem poolAggregate_eq_foldl {lines : List PyStr} {records : List HostRecord}
    (h : List.Forall₂ (fun l r => parseHostLine l = .ok (some r)) lines records) :
    ∀ s, poolAggregate s lines = .ok (records.foldl applyRecord s) := by
  induction h with
  | nil =>
    intro s
    rfl
  | cons hlr _ ih =>
    intro s
    simp [poolAggregate, hlr, ih]

/-- The numeric accumulators of the aggregation fold are the field sums. -/
theorem foldl_applyRecord_fields (records : List HostRecord) :
    ∀ s : AggState,
      (records.foldl applyRecord s).cpus = s.cpus + (records.map HostRecord.cpus).sum
    ∧ (records.foldl applyRecord s).memory = s.memory + (records.map HostRecord.memory).sum
    ∧ (records.foldl applyRecord s).disk = s.disk + (records.map HostRecord.disk).sum := by
  induction records with
  | nil =>
    intro s
    simp
  | cons r rs ih =>
    intro s
    have h := ih (applyRecord s r)
    refine ⟨?_, ?_, ?_⟩
    · rw [List.foldl_cons, h.1]
      simp [applyRecord]
      ring
    · rw [List.foldl_cons, h.2.1]
      simp [applyRecord]
      ring
    · rw [List.foldl_cons, h.2.2]
      simp [applyRecord]
      ring

/-- The machine set of the aggregation fold stays duplicate-free and holds
exactly the machine names seen so far. -/
theorem foldl_applyRecord_machines (records : List HostRecord) :
    ∀ s : AggState, s.machines.Nodup →
      (records.foldl applyRecord s).machines.Nodup
    ∧ (records.foldl applyRecord s).machines.toFinset
        = s.machines.toFinset ∪ (records.map HostRecord.machine).toFinset := by
  induction records with
  | nil =>
    intro s h
    simp [h]
  | cons r rs ih =>
    intro s h
    have hins : (insertMachine s.machines r.machine).Nodup := by
      unfold insertMachine
      split
      · exact h
      · rename_i hc
        simp at hc
        simp [List.nodup_append, h, hc]
    have htf : (insertMachine s.machines r.machine).toFinset
        = insert r.machine s.machines.toFinset := by
      unfold insertMachine
      split
      · rename_i hc
        simp at hc
        exact (Finset.insert_eq_self.mpr (List.mem_toFinset.mpr hc)).symm
      · rw [List.toFinset_append, Finset.union_comm]
        simp [Finset.insert_eq]
    have hmain := ih (applyRecord s r) hins
    refine ⟨hmain.1, ?_⟩
    rw [List.foldl_cons]
    rw [hmain.2]
    show (insertMachine s.machines r.machine).toFinset ∪ _ = _
    rw [htf, List.map_cons, List.toFinset_cons, Finset.insert_union,
      Finset.union_insert]

/-- C8: on the success path, the Capacity View's query produces the dict
whose `cpus`, `memory` and `disk` entries are the sums of the respective
record fields and whose `machines` entry is the number of distinct machine
names; in particular two identical `(4, 8192, 100000, host1)` records yield
8 cpus but a single distinct machine. -/
theorem C8_capacity_aggregation :
    (∀ (lines : List PyStr) (records : List HostRecord),
      List.Forall₂ (fun l r => parseHostLine l = .ok (some r)) lines records →
      poolQueryData (.out lines) = .ok (some
        [(pyStr "cpus", (records.map HostRecord.cpus).sum),
         (pyStr "memory", (records.map HostRecord.memory).sum),
         (pyStr "disk", (records.map HostRecord.disk).sum),
         (pyStr "machines", ((records.map HostRecord.machine).toFinset.card : ℚ))]))
    ∧ poolQueryData (.out [pyStr "4 8192 100000 host1", pyStr "4 8192 100000 host1"])
        = .ok (some [(pyStr "cpus", 8), (pyStr "memory", 16384),
            (pyStr "disk", 200000), (pyStr "machines", 1)]) := by
  constructor
  · intro lines records h
    have hagg := poolAggregate_eq_foldl h ⟨0, 0, 0, []⟩
    have hf := foldl_applyRecord_fields records ⟨0, 0, 0, []⟩
    have hm := foldl_applyRecord_machines records ⟨0, 0, 0, []⟩ (by simp)
    have hcard : ((records.foldl applyRecord ⟨0, 0, 0, []⟩).machines.length : ℚ)
        = ((records.map HostRecord.machine).toFinset.card : ℚ) := by
      rw [← List.toFinset_card_of_nodup hm.1, hm.2]
      simp
    simp only [poolQueryData, hagg, finalDict, hf.1, hf.2.1, hf.2.2, hcard]
    norm_num
  · have h1 : parseHostLine (pyStr "4 8192 100000 host1") =
        .ok (some ⟨4, 8192, 100000, pyStr "host1"⟩) := by decide
    simp +decide [poolQueryData, poolAggregate, h1, applyRecord, insertMachine,
      finalDict]
    norm_num

/-- C8 witness: the general aggregation theorem applied to the concrete
duplicate-host input. -/
theorem C8_capacity_aggregation_witness :
    poolQueryData (.out [pyStr "4 8192 100000 host1", pyStr "4 8192 100000 host1"])
      = .ok (some [(pyStr "cpus",
          ([⟨4, 8192, 100000, pyStr "host1"⟩,
            ⟨4, 8192, 100000, pyStr "host1"⟩].map HostRecord.cpus).sum),
        (pyStr "memory",
          ([⟨4, 8192, 100000, pyStr "host1"⟩,
            ⟨4, 8192, 100000, pyStr "host1"⟩].map HostRecord.memory).sum),
        (pyStr "disk",
          ([⟨4, 8192, 100000, pyStr "host1"⟩,
            ⟨4, 8192, 100000, pyStr "host1"⟩].map HostRecord.disk).sum),
        (pyStr "machines",
          (([⟨4, 8192, 100000, pyStr "host1"⟩,
             ⟨4, 8192, 100000, pyStr "host1"⟩].map HostRecord.machine).toFinset.card : ℚ))]) :=
  C8_capacity_aggregation.1
    [pyStr "4 8192 100000 host1", pyStr "4 8192 100000 host1"]
    [⟨4, 8192, 100000, pyStr "host1"⟩, ⟨4, 8192, 100000, pyStr "host1"⟩]
    (List.Forall₂.cons (by decide) (List.Forall₂.cons (by decide) List.Forall₂.nil))

/-- C9 (amended): a record with the wrong field count is silently skipped —
it parses to "no record" and the aggregation of the remaining lines is
unchanged — and in particular a three-field record does not abort the
aggregation of a following valid record.  (A four-field record with a
non-numeric field, by contrast, raises an uncaught `ValueError`; see the
counterexample.) -/
theorem C9_malformed_record_skipped :
    ∀ (s : AggState) (l : PyStr) (ls : List PyStr),
      ((pySplitWS l).length ≠ 4 →
        parseHostLine l = .ok none ∧ poolAggregate s (l :: ls) = poolAggregate s ls)
    ∧ poolQueryData (.out [pyStr "4 8192 100000", pyStr "4 8192 100000 host2"])
        = .ok (some [(pyStr "cpus", 4), (pyStr "memory", 8192),
            (pyStr "disk", 100000), (pyStr "machines", 1)]) := by
  intro s l ls
  constructor
  · intro h
    have hp : parseHostLine l = .ok none := by
      unfold parseHostLine
      rcases hsp : pySplitWS l with _ | ⟨a, _ | ⟨b, _ | ⟨c, _ | ⟨e, _ | ⟨f, tl⟩⟩⟩⟩⟩ <;>
        first
          | rfl
          | (exact absurd (by rw [hsp]; rfl) h)
    exact ⟨hp, by simp [poolAggregate, hp]⟩
  · have h1 : parseHostLine (pyStr "4 8192 100000") = .ok none := by decide
    have h2 : parseHostLine (pyStr "4 8192 100000 host2") =
        .ok (some ⟨4, 8192, 100000, pyStr "host2"⟩) := by decide
    simp +decide [poolQueryData, poolAggregate, h1, h2, applyRecord, insertMachine,
      finalDict]

/-- C9 witness: the field-count skip applied to a concrete one-field line
followed by nothing. -/
theorem C9_malformed_record_skipped_witness :
    parseHostLine (pyStr "junk") = .ok none
  ∧ poolAggregate ⟨0, 0, 0, []⟩ [pyStr "junk"] = poolAggregate ⟨0, 0, 0, []⟩ [] :=
  (C9_malformed_record_skipped ⟨0, 0, 0, []⟩ (pyStr "junk") []).1 (by decide)

/-- C9 counterexample: the original claim says an "otherwise unparseable"
record is also silently skipped; in fact a record with exactly four fields
whose first field is not numeric makes `float(cpus)` raise a `ValueError`
in the `else` block — outside the `try` — aborting the whole refresh
instead of skipping the record. -/
theorem C9_unparseable_record_counterexample :
    poolQueryData (.out [pyStr "x 8192 100000 host1", pyStr "4 8192 100000 host2"])
      = .error () := by
  decide

-- sanity examples (concrete behaviour of the string layer)
example : pyPartitionEq (pyStr "GPU_LIMIT = 7") = (pyStr "GPU_LIMIT ", pyStr " 7") := by decide
example : pyFloat (pyStr " 7") = some 7 := by decide
example : pyFloat (pyStr "x") = none := by decide
example : constraintKeyToResource (pyStr "GPU_LIMIT") = some (pyStr "GPU") := by decide
example : usageKeyToResource (pyStr "ConcurrencyLimit_GPU_typeA") = some (pyStr "GPU_typeA") := by decide
example : queryLimits [pyStr "GPU_LIMIT = 7"] constraintKeyToResource = [(pyStr "GPU", 7)] := by decide
example :
    parseHostLine (pyStr "4 8192 100000 host1") =
      .ok (some ⟨4, 8192, 100000, pyStr "host1"⟩) := by decide
example :
    poolQueryData (.out [pyStr "4 8192 100000 host1", pyStr "4 8192 100000 host1"]) =
      .ok (some [(pyStr "cpus", 8), (pyStr "memory", 16384),
        (pyStr "disk", 200000), (pyStr "machines", 1)]) := by
  have h1 : parseHostLine (pyStr "4 8192 100000 host1") =
      .ok (some ⟨4, 8192, 100000, pyStr "host1"⟩) := by decide
  simp +decide [poolQueryData, poolAggregate, h1, applyRecord, insertMachine, finalDict]
  norm_num
example : poolQueryData (.out [pyStr "x 8192 100000 host1"]) = .error () := by decide
example :
    tryRefresh (initView none 10) 1 (.returns (some [])) = .ok ⟨none, 10, 11, some []⟩ := by
  simp [tryRefresh, initView]
  norm_num
